import Mathlib

/-! Shallow embedding of the `store_api` product CRUD service.

Sources embedded:
- `src/store/usecases/product.py` (ProductUsecase: create, get, query, update, delete)
- `src/store/controllers/product.py` (HTTP handlers; only the list handler matters here)
- `src/store/schemas/product.py` (ProductIn/Out, ProductUpdate, ProductFilters)
- `src/store/models/product.py` (ProductModel, which declares `price: float`)

Modelling conventions:
- The MongoDB collection is a list of documents plus a counter supplying fresh
  store-generated object ids (`_id`).  `insert_one` appends, `find_one` returns
  the first match, `delete_one` / `find_one_and_update` act on the first match.
- Python `Decimal` values and Mongo numeric values are rationals (`ℚ`);
  timestamps and integers are `ℤ`; UUIDs and ObjectId strings are `String`.
- CPython `float(...)` (and the pydantic coercion of `Decimal` into the
  `price: float` field of `ProductModel`) is modelled by `roundFloat`:
  IEEE-754 binary64 round-to-nearest, ties-to-even, for the normal range
  (overflow and subnormal underflow are not modelled; every price considered
  here is of ordinary magnitude).
- `store/models/base.py` (`CreateBaseModel`) and `store/schemas/base.py`
  (`BaseSchemaMixin`, `OutSchema`) are part of the repository but absent from
  `src/`.  Modelled from the spec: §3 gives every record `id`, `created_at`,
  `updated_at`, and §9 records that the source keys its `find` filters on a
  separate UUID field named `id` while the create path reports the
  store-generated id.  Accordingly `CreateBaseModel` is modelled as supplying
  a client-generated UUID `id` plus `created_at` / `updated_at` defaults, and
  `OutSchema` as requiring `id`, `created_at`, `updated_at` on output records.
-/

namespace StoreApi

/-- Fuel-driven binary logarithm helper; the fuel argument only bounds the
recursion depth, the computation halves `n` until it reaches `0` or `1`. -/
def natLogAux : Nat → Nat → Nat
  | 0, _ => 0
  | f + 1, n => if n ≤ 1 then 0 else natLogAux f (n / 2) + 1

/-- Floor of the binary logarithm of `n` (`natLog2 n = k` iff `2^k ≤ n < 2^(k+1)`
for `n ≥ 1`).  Structural recursion so that the kernel can evaluate it. -/
def natLog2 (n : Nat) : Nat := natLogAux n n

/-- Integer power of two as a rational, for both signs of the exponent. -/
def pow2 (e : ℤ) : ℚ :=
  if 0 ≤ e then ((2 : ℚ) ^ e.toNat) else ((2 : ℚ) ^ (-e).toNat)⁻¹

/-- Round a rational to the nearest integer, ties to even (the IEEE-754 and
CPython rounding rule). -/
def roundTiesEven (x : ℚ) : ℤ :=
  let f := ⌊x⌋
  let r := x - f
  if r < 1 / 2 then f
  else if 1 / 2 < r then f + 1
  else if f % 2 = 0 then f else f + 1

/-- Binary exponent of a nonzero rational: the unique `e` with
`2^e ≤ |q| < 2^(e+1)`, computed from the bit lengths of numerator and
denominator followed by one correction test. -/
def floatExp (q : ℚ) : ℤ :=
  let a := q.num.natAbs
  let b := q.den
  let d : ℤ := (natLog2 a : ℤ) - (natLog2 b : ℤ)
  if pow2 d ≤ |q| then d else d - 1

/-- Model of CPython `float(x)` on an exact decimal/rational input: round to
the nearest IEEE-754 binary64 value (53-bit significand), ties to even.
Normal range only: overflow to infinity and subnormal underflow are not
modelled, which is irrelevant for the price magnitudes considered. -/
def roundFloat (q : ℚ) : ℚ :=
  if q = 0 then 0
  else
    let ulp := pow2 (floatExp q - 52)
    (roundTiesEven (q / ulp) : ℚ) * ulp

/-- Error kinds raised by the usecase layer
(`store/core/exceptions.py`: `NotFoundException`, `InsertionException`). -/
inductive Err where
  | notFound
  | insertion
deriving DecidableEq, Repr

/-- One persisted Mongo document of the `products` collection.  `oid` is the
store-generated `_id`; `id` is the separate UUID field carried by documents
created through `ProductModel` (see the header comment: `CreateBaseModel` is
modelled from the spec).  Documents written by other means may lack `id`,
hence the `Option`. -/
structure Document where
  oid : Nat
  id : Option String
  name : String
  quantity : ℤ
  price : ℚ
  status : Bool
  created_at : ℤ
  updated_at : ℤ
deriving DecidableEq, Repr

/-- The `products` collection: its documents in natural (insertion) order and
the next fresh store-generated object id. -/
structure DB where
  docs : List Document
  nextOid : Nat
deriving DecidableEq, Repr

/-- Schema `ProductIn` (`store/schemas/product.py` lines 9-17): the validated create
body; `price` is an exact `Decimal`. -/
structure ProductIn where
  name : String
  quantity : ℤ
  price : ℚ
  status : Bool
deriving DecidableEq, Repr

/-- Schema `ProductOut` (`store/schemas/product.py` line 20, with `OutSchema`
modelled from the spec): a full record including its `id`.
`ProductUpdateOut` (line 37) adds nothing and is represented by the same
type. -/
structure ProductOut where
  id : String
  name : String
  quantity : ℤ
  price : ℚ
  status : Bool
  created_at : ℤ
  updated_at : ℤ
deriving DecidableEq, Repr

/-- Schema `ProductUpdate` (`store/schemas/product.py` lines 31-35).  Every field is
optional; `updated_at` has `default_factory=datetime.utcnow`, so unless the
client explicitly supplies a value (or an explicit null, which
`exclude_none` then drops) it holds the request-parse current time.
The `price` field passes through `Decimal_`, i.e. `Decimal128(str(v))`,
which preserves the exact value. -/
structure ProductUpdate where
  quantity : Option ℤ
  price : Option ℚ
  status : Option Bool
  updated_at : Option ℤ
deriving DecidableEq, Repr

/-- Schema `ProductFilters` (`store/schemas/product.py` lines 40-44). -/
structure ProductFilters where
  min_price : Option ℚ
  max_price : Option ℚ
  name : Option String
  status : Option Bool
deriving DecidableEq, Repr

/-- The document built by `ProductModel(**body.model_dump())`
(`usecases/product.py` line 24 together with `models/product.py`):
pydantic coerces the `Decimal` price into the `price: float` field, and the
model carries a client-generated UUID `id` plus `created_at` / `updated_at`
set to the current time (`CreateBaseModel`, modelled from the spec — see the
header comment).  `oid` is the `_id` the store attaches on insert; it is
bundled here so that a single document type suffices. -/
def productModelDoc (body : ProductIn) (now : ℤ) (uuid : String) (oid : Nat) : Document where
  oid := oid
  id := some uuid
  name := body.name
  quantity := body.quantity
  price := roundFloat body.price
  status := body.status
  created_at := now
  updated_at := now

/-- Construction `ProductOut(**document)`: pydantic validation fails when the document has
no `id` field (the schema requires it), hence the `Option`. -/
def toOut (d : Document) : Option ProductOut :=
  d.id.map fun i =>
    { id := i, name := d.name, quantity := d.quantity, price := d.price,
      status := d.status, created_at := d.created_at, updated_at := d.updated_at }

/-- Total variant of `toOut`, used where the document is known to carry an
`id` (a document matched by the filter `{"id": id}` always does, so the
pydantic construction cannot fail there). -/
def toOutD (d : Document) : ProductOut :=
  { id := d.id.getD "", name := d.name, quantity := d.quantity, price := d.price,
    status := d.status, created_at := d.created_at, updated_at := d.updated_at }

/-- Store call `insert_one`: append the document in natural order and consume the fresh
object id. -/
def insertOne (db : DB) (d : Document) : DB :=
  { docs := db.docs ++ [d], nextOid := db.nextOid + 1 }

/-- Store call `find_one` on the filter keyed by `id`: first document whose `id` field equals the given
UUID string. -/
def findOne (db : DB) (i : String) : Option Document :=
  db.docs.find? fun d => d.id == some i

/-- Store call `delete_one(filter)`: remove the first document satisfying the filter. -/
def removeFirst (p : Document → Bool) : List Document → List Document
  | [] => []
  | d :: ds => if p d then ds else d :: removeFirst p ds

/-- Replace the first document satisfying the filter using `f`, returning the
rewritten document (Mongo `ReturnDocument.AFTER`) and the new list. -/
def updateFirst (p : Document → Bool) (f : Document → Document) :
    List Document → Option Document × List Document
  | [] => (none, [])
  | d :: ds =>
    if p d then (some (f d), f d :: ds)
    else
      let r := updateFirst p f ds
      (r.1, d :: r.2)

/-- Mongo `$set` with `body.model_dump(exclude_none=True)`
(`usecases/product.py` line 84): overwrite exactly the fields present in the
partial body; absent fields keep their stored values.  Note that the code
sends the raw body dump: the `update_data` dictionary prepared on lines 73-80
(the `update_at` typo key and the float conversion of the price) is discarded
and never reaches the store. -/
def applySet (b : ProductUpdate) (d : Document) : Document :=
  { d with
    quantity := b.quantity.getD d.quantity
    price := b.price.getD d.price
    status := b.status.getD d.status
    updated_at := b.updated_at.getD d.updated_at }

/-- Store call `find_one_and_update` on the filter keyed by `id`, applying
the `$set` update and returning the document after it
(`usecases/product.py` lines 82-86). -/
def findOneAndUpdate (db : DB) (i : String) (b : ProductUpdate) :
    Option Document × DB :=
  let r := updateFirst (fun d => d.id == some i) (applySet b) db.docs
  (r.1, { docs := r.2, nextOid := db.nextOid })

/-- Outcome reported by the store for `insert_one` (`result.inserted_id` on
lines 26 and 31): the insert succeeded and reported the generated id, the
insert returned without a generated id, or the call raised.  The last two
leave the collection unchanged. -/
inductive InsertOutcome where
  | ok
  | noId
  | err
deriving DecidableEq, Repr

/-- Operation `ProductUsecase.create` (`usecases/product.py` lines 22-38).
`uuid` is the UUID the model generates for its `id` field and `now` the
current time.  On a successful insert the source then evaluates
`ProductOut(**product_model.model_dump(), id=str(result.inserted_id))`:
the model dump already contains the key `id`, so the keyword `id` is passed
twice and Python raises `TypeError` before pydantic runs.  The `except`
branch sees `result.inserted_id` set, issues the compensating
`delete_one({"_id": result.inserted_id})` (line 33, swallowing any failure
of that delete — modelled by `delFails`), and re-raises as
`InsertionException`.  The `return` on line 27 is therefore unreachable and
every call reports `InsertionException`.  When the store reports no
generated id or the insert call raises, nothing was inserted and no
rollback is attempted (`result.inserted_id` is falsy or `result` is not in
`locals()`). -/
def create (db : DB) (body : ProductIn) (now : ℤ) (uuid : String)
    (ins : InsertOutcome) (delFails : Bool) : Except Err ProductOut × DB :=
  let doc := productModelDoc body now uuid db.nextOid
  match ins with
  | .err => (.error .insertion, db)
  | .noId => (.error .insertion, db)
  | .ok =>
    let db1 := insertOne db doc
    if delFails then (.error .insertion, db1)
    else (.error .insertion, { docs := removeFirst (fun d => d.oid == doc.oid) db1.docs,
                               nextOid := db1.nextOid })

/-- Operation `ProductUsecase.get` (`usecases/product.py` lines 40-46). -/
def get (db : DB) (i : String) : Except Err ProductOut :=
  match findOne db i with
  | none => .error .notFound
  | some d => .ok (toOutD d)

/-- The `"price"` entry of the query filter dictionary:
`{"$gte": ..., "$lte": ...}` with either bound optional. -/
structure MongoPriceCond where
  gte : Option ℚ
  lte : Option ℚ
deriving DecidableEq, Repr

/-- The `query_filter` dictionary built by `ProductUsecase.query`
(`usecases/product.py` lines 49-64): at most one price range condition, one
`$regex` condition on `name` (always with the `i` option), and one equality
condition on `status`. -/
structure MongoFilter where
  price : Option MongoPriceCond
  nameRegex : Option (List Char)
  status : Option Bool
deriving DecidableEq, Repr

/-- Lines 51-64 of `usecases/product.py`: build `query_filter` from the
optional filters.  Each price bound passes through `float(...)`, i.e.
`roundFloat`; when both bounds are given they merge into one range
condition. -/
def buildFilter (filters : Option ProductFilters) : MongoFilter :=
  match filters with
  | none => { price := none, nameRegex := none, status := none }
  | some fs =>
    let f0 : MongoFilter := { price := none, nameRegex := none, status := none }
    let f1 :=
      match fs.min_price with
      | some m => { f0 with price := some { gte := some (roundFloat m), lte := none } }
      | none => f0
    let f2 :=
      match fs.max_price with
      | some M =>
        match f1.price with
        | some c => { f1 with price := some { c with lte := some (roundFloat M) } }
        | none => { f1 with price := some { gte := none, lte := some (roundFloat M) } }
      | none => f1
    let f3 :=
      match fs.name with
      | some n => { f2 with nameRegex := some n.data }
      | none => f2
    match fs.status with
    | some s => { f3 with status := some s }
    | none => f3

/-- Case-insensitive anchored regex match of the pattern against a prefix of
the text.  Modelled from the spec: Mongo `$regex` with option `i` is an
external capability (§4, §6); only the fragment of the pattern language
exercised here is modelled, where `.` matches any single character and every
other character matches itself up to ASCII case. -/
def matchHere : List Char → List Char → Bool
  | [], _ => true
  | _ :: _, [] => false
  | p :: ps, c :: cs => (p == '.' || p.toLower == c.toLower) && matchHere ps cs

/-- Case-insensitive anchored literal match: the pattern characters compared
one by one, with no metacharacter.  This is the notion of literal substring
match used by the spec sentence on the `name` filter. -/
def litHere : List Char → List Char → Bool
  | [], _ => true
  | _ :: _, [] => false
  | p :: ps, c :: cs => (p.toLower == c.toLower) && litHere ps cs

/-- Unanchored case-insensitive regex search, the semantics of
`{"$regex": pat, "$options": "i"}` for the modelled pattern fragment. -/
def regexFindCI (pat : List Char) : List Char → Bool
  | [] => matchHere pat []
  | c :: cs => matchHere pat (c :: cs) || regexFindCI pat cs

/-- Case-insensitive literal substring test: the spec reading of the `name`
filter (the filter string taken literally, not as a pattern). -/
def containsCI (pat : List Char) : List Char → Bool
  | [] => litHere pat []
  | c :: cs => litHere pat (c :: cs) || containsCI pat cs

/-- Mongo evaluation of the price range condition against a stored value. -/
def matchPrice (c : MongoPriceCond) (p : ℚ) : Bool :=
  (match c.gte with
   | none => true
   | some b => decide (b ≤ p)) &&
  (match c.lte with
   | none => true
   | some b => decide (p ≤ b))

/-- Mongo evaluation of the whole `query_filter` against one document:
conjunction of the present conditions. -/
def matchDoc (f : MongoFilter) (d : Document) : Bool :=
  (match f.price with
   | none => true
   | some c => matchPrice c d.price) &&
  (match f.nameRegex with
   | none => true
   | some pat => regexFindCI pat d.name.data) &&
  (match f.status with
   | none => true
   | some s => d.status == s)

/-- Operation `ProductUsecase.query` (`usecases/product.py` lines 48-66): build the
filter, fetch the matching documents in natural order, and validate each as
`ProductOut`.  The list comprehension raises (hence `none`) as soon as one
matching document lacks the `id` field the output schema requires. -/
def query (db : DB) (filters : Option ProductFilters) : Option (List ProductOut) :=
  (db.docs.filter fun d => matchDoc (buildFilter filters) d).mapM toOut

/-- Operation `ProductUsecase.update` (`usecases/product.py` lines 68-96): existence
check by `id`, then `find_one_and_update` applying `$set` with the raw body
dump (see `applySet`), returning the document after the update.  A missing
document at write time maps to `InsertionException`; with a single writer
this branch is unreachable once the existence check passed. -/
def update (db : DB) (i : String) (b : ProductUpdate) :
    Except Err ProductOut × DB :=
  match findOne db i with
  | none => (.error .notFound, db)
  | some _ =>
    let r := findOneAndUpdate db i b
    match r.1 with
    | none => (.error .insertion, r.2)
    | some d => (.ok (toOutD d), r.2)

/-- Operation `ProductUsecase.delete` (`usecases/product.py` lines 98-105): existence
check by `id`, then `delete_one({"id": id})` and `True` iff the store reports
a positive deleted count.  `raceLost` models the spec §5 race window in which
the store reports zero deletions although the existence check succeeded (a
concurrent delete won); the state evolution of that concurrent deleter is
outside this single-writer model, so the collection is returned unchanged
there.  With a single writer `raceLost` is `false`. -/
def delete (db : DB) (i : String) (raceLost : Bool) : Except Err Bool × DB :=
  match findOne db i with
  | none => (.error .notFound, db)
  | some _ =>
    if raceLost then (.ok false, db)
    else (.ok true, { docs := removeFirst (fun d => d.id == some i) db.docs,
                      nextOid := db.nextOid })

set_option linter.unusedVariables false in
/-- The HTTP list handler (`controllers/product.py` lines 51-66): it builds a
`ProductFilters` object from the query parameters (`Decimal(min_price)` on an
exact binary float is exact, so the values carry over unchanged) and then
calls `usecase.query()` without passing it, so the store is always queried
with no filters. -/
def controllerQuery (db : DB) (min_price max_price : Option ℚ)
    (nm : Option String) (st : Option Bool) : Option (List ProductOut) :=
  let filters : ProductFilters :=
    { min_price := min_price, max_price := max_price, name := nm, status := st }
  query db none

/-- A valid create body, the worked example of spec §8. -/
def bodyW : ProductIn :=
  { name := "Widget", quantity := 5, price := 999 / 100, status := true }

/-- The empty collection. -/
def dbEmpty : DB := { docs := [], nextOid := 0 }

/-- A stored product whose price is the binary64 value nearest to `0.3`,
exactly what a create with price `0.3` persists through the `float` field. -/
def docP : Document :=
  { oid := 0, id := some "p1", name := "Widget", quantity := 5,
    price := roundFloat (3 / 10), status := true, created_at := 0, updated_at := 0 }

/-- Collection holding only `docP`. -/
def dbP : DB := { docs := [docP], nextOid := 1 }

/-- A decimal strictly greater than `3 / 10` that rounds to the same binary64
value: `0.300000000000000005`. -/
def mnQ : ℚ := 300000000000000005 / 1000000000000000000

/-- The decimal `0.3`. -/
def mxQ : ℚ := 3 / 10

/-- A stored product named `abc`, for the name-filter analysis. -/
def docA : Document :=
  { oid := 0, id := some "a1", name := "abc", quantity := 1, price := 1,
    status := true, created_at := 0, updated_at := 0 }

/-- Collection holding only `docA`. -/
def dbA : DB := { docs := [docA], nextOid := 1 }

/-- A stored product created at time `100`. -/
def docC : Document :=
  { oid := 0, id := some "c1", name := "W", quantity := 1, price := 1,
    status := true, created_at := 100, updated_at := 100 }

/-- Collection holding only `docC`. -/
def dbC : DB := { docs := [docC], nextOid := 1 }

/-- An active and an inactive product, to exhibit a store on which a status
filter would make a difference. -/
def docT : Document :=
  { oid := 0, id := some "t1", name := "On", quantity := 1, price := 1,
    status := true, created_at := 0, updated_at := 0 }

/-- The inactive counterpart of `docT`. -/
def docF : Document :=
  { oid := 1, id := some "f1", name := "Off", quantity := 1, price := 1,
    status := false, created_at := 0, updated_at := 0 }

/-- Collection holding `docT` and `docF`. -/
def dbS : DB := { docs := [docT, docF], nextOid := 2 }

attribute [local semireducible] Rat.mul Rat.inv Rat.add Rat.sub Rat.ofScientific

theorem find_first (p : Document → Bool) {pre post : List Document} {d : Document}
    (hpre : ∀ x ∈ pre, p x = false) (hd : p d = true) :
    (pre ++ d :: post).find? p = some d := by
  induction pre with
  | nil => simp [List.find?_cons_of_pos, hd]
  | cons a pre ih =>
    have ha : p a = false := hpre a (List.mem_cons_self a pre)
    rw [List.cons_append, List.find?_cons_of_neg _ (by simp [ha])]
    exact ih fun x hx => hpre x (List.mem_cons_of_mem a hx)

theorem find_decomp (p : Document → Bool) {l : List Document} {d : Document}
    (h : l.find? p = some d) :
    ∃ pre post, l = pre ++ d :: post ∧ (∀ x ∈ pre, p x = false) ∧ p d = true := by
  induction l with
  | nil => simp [List.find?] at h
  | cons a l ih =>
    cases hpa : p a with
    | true =>
      rw [List.find?_cons_of_pos _ hpa] at h
      obtain rfl : a = d := by injection h
      exact ⟨[], l, rfl, by simp, hpa⟩
    | false =>
      rw [List.find?_cons_of_neg _ (by simp [hpa])] at h
      obtain ⟨pre, post, hsplit, hpre, hd⟩ := ih h
      exact ⟨a :: pre, post, by simp [hsplit], by
        intro x hx
        rcases List.mem_cons.mp hx with rfl | hx
        · exact hpa
        · exact hpre x hx, hd⟩

theorem updateFirst_append (p : Document → Bool) (f : Document → Document)
    {pre post : List Document} {d : Document}
    (hpre : ∀ x ∈ pre, p x = false) (hd : p d = true) :
    updateFirst p f (pre ++ d :: post) = (some (f d), pre ++ f d :: post) := by
  induction pre with
  | nil => simp [updateFirst, hd]
  | cons a pre ih =>
    have ha : p a = false := hpre a (List.mem_cons_self a pre)
    have ih' := ih fun x hx => hpre x (List.mem_cons_of_mem a hx)
    simp only [List.cons_append, updateFirst, ha, List.append_eq]
    simp [ih']

theorem removeFirst_append (p : Document → Bool)
    {pre post : List Document} {d : Document}
    (hpre : ∀ x ∈ pre, p x = false) (hd : p d = true) :
    removeFirst p (pre ++ d :: post) = pre ++ post := by
  induction pre with
  | nil => simp [removeFirst, hd]
  | cons a pre ih =>
    have ha : p a = false := hpre a (List.mem_cons_self a pre)
    have ih' := ih fun x hx => hpre x (List.mem_cons_of_mem a hx)
    simp only [List.cons_append, removeFirst, ha, List.append_eq]
    simp [ih']

theorem toOut_of_isSome {d : Document} (h : d.id.isSome) :
    toOut d = some (toOutD d) := by
  cases hid : d.id with
  | none => rw [hid] at h; simp at h
  | some i => simp [toOut, toOutD, hid]

theorem mapM_toOut {l : List Document} (h : ∀ d ∈ l, d.id.isSome) :
    l.mapM toOut = some (l.map toOutD) := by
  induction l with
  | nil => rfl
  | cons d l ih =>
    rw [List.mapM_cons, toOut_of_isSome (h d (List.mem_cons_self d l)),
      ih fun x hx => h x (List.mem_cons_of_mem d hx)]
    rfl

theorem applySet_id (b : ProductUpdate) (d : Document) :
    (applySet b d).id = d.id := rfl

theorem findOne_split {db : DB} {i : String} {pre post : List Document}
    {d : Document} (hsplit : db.docs = pre ++ d :: post)
    (hpre : ∀ x ∈ pre, x.id ≠ some i) (hd : d.id = some i) :
    findOne db i = some d := by
  rw [findOne, hsplit]
  exact find_first _ (fun x hx => by simp [hpre x hx]) (by simp [hd])

theorem update_spec {db : DB} {i : String} {b : ProductUpdate}
    {pre post : List Document} {d : Document}
    (hsplit : db.docs = pre ++ d :: post)
    (hpre : ∀ x ∈ pre, x.id ≠ some i) (hd : d.id = some i) :
    update db i b =
      (.ok (toOutD (applySet b d)),
       { docs := pre ++ applySet b d :: post, nextOid := db.nextOid }) := by
  have hfind := findOne_split hsplit hpre hd
  rw [update, hfind, findOneAndUpdate, hsplit,
    updateFirst_append _ _ (fun x hx => by simp [hpre x hx]) (by simp [hd])]

theorem delete_spec {db : DB} {i : String}
    {pre post : List Document} {d : Document}
    (hsplit : db.docs = pre ++ d :: post)
    (hpre : ∀ x ∈ pre, x.id ≠ some i) (hd : d.id = some i) :
    delete db i false = (.ok true, { docs := pre ++ post, nextOid := db.nextOid }) ∧
    delete db i true = (.ok false, db) := by
  have hfind := findOne_split hsplit hpre hd
  constructor
  · rw [delete, hfind]
    simp only [if_false, Bool.false_eq_true]
    rw [hsplit, removeFirst_append _ (fun x hx => by simp [hpre x hx]) (by simp [hd])]
  · rw [delete, hfind]
    rfl

theorem matchHere_no_dot {pat : List Char} (h : '.' ∉ pat) (s : List Char) :
    matchHere pat s = litHere pat s := by
  induction pat generalizing s with
  | nil => rfl
  | cons p ps ih =>
    have hsplit : ('.' : Char) ≠ p ∧ ('.' : Char) ∉ ps := by
      simpa [List.mem_cons, not_or] using h
    have hp : ('.' : Char) ≠ p := hsplit.1
    have hps : ('.' : Char) ∉ ps := hsplit.2
    cases s with
    | nil => rfl
    | cons c cs =>
      have hpb : (p == '.') = false := beq_eq_false_iff_ne.mpr (Ne.symm hp)
      simp [matchHere, litHere, hpb, ih hps]

theorem regexFind_eq_contains {pat : List Char} (h : '.' ∉ pat) (s : List Char) :
    regexFindCI pat s = containsCI pat s := by
  induction s with
  | nil => simp [regexFindCI, containsCI, matchHere_no_dot h]
  | cons c cs ih => simp [regexFindCI, containsCI, matchHere_no_dot h, ih]

theorem query_eq (db : DB) (filters : Option ProductFilters)
    (h : ∀ d ∈ db.docs, d.id.isSome) :
    query db filters =
      some ((db.docs.filter fun d => matchDoc (buildFilter filters) d).map toOutD) := by
  rw [query]
  exact mapM_toOut fun d hd => h d (List.mem_of_mem_filter hd)

/-- C1: the claim asserts the Create-then-Get round trip: a valid Create
returns a record with a non-empty id that a Get with that id retrieves.  The
code violates it: on a successful insert, `create` evaluates
`ProductOut(**product_model.model_dump(), id=str(result.inserted_id))`, and
since the model dump already contains the UUID `id` field, the keyword `id`
is passed twice, raising `TypeError`; the except-branch rolls the insert back
and re-raises `InsertionException`.  Evaluated at the spec §8 example input
(`Widget`, quantity 5, price 9.99, status true) on the empty store with a
successful insert and a successful compensating delete: Create returns
`InsertionException` and the store is left without the record, so nothing is
retrievable via Get. -/
theorem c1_create_roundtrip_broken :
    create dbEmpty bodyW 0 "u0" .ok false =
      (.error .insertion, { docs := [], nextOid := 1 }) ∧
    get { docs := [], nextOid := 1 } "u0" = .error .notFound := by
  exact ⟨rfl, rfl⟩

/-- C2: the HTTP list handler builds a `ProductFilters` object from the
`min_price`, `max_price`, `name` and `status` query parameters but never
passes it to the usecase, so for every parameter combination it returns
exactly the unfiltered query result.  The second conjunct exhibits a store on
which the constructed filter would have made a difference, showing the claim
is about a real divergence and not a vacuity. -/
theorem c2_controller_ignores_filters :
    (∀ (db : DB) (a b : Option ℚ) (nm : Option String) (st : Option Bool),
      controllerQuery db a b nm st = query db none) ∧
    query dbS (some { min_price := none, max_price := none,
                      name := none, status := some true }) ≠
      controllerQuery dbS none none none (some true) := by
  refine ⟨fun db a b nm st => rfl, ?_⟩
  decide

/-- C3: the claim asserts that prices keep exact decimal precision with no
binary floating-point conversion at any step.  The code violates it:
`ProductModel` declares `price: float`, so the document persisted by Create
holds `float(price)`; at the spec §8 example price 9.99 the stored value
differs from the supplied decimal. -/
theorem c3_price_drifts_through_float :
    (productModelDoc bodyW 0 "u0" 0).price ≠ bodyW.price := by
  decide

/-- C6: NotFoundError discipline.  For each of Get, Update and Delete the
result is `NotFoundException` exactly when no stored document carries the
requested id, and Create never raises `NotFoundException`. -/
theorem c6_notfound_iff (db : DB) (i : String) (b : ProductUpdate) (r : Bool)
    (body : ProductIn) (now : ℤ) (u : String) (ins : InsertOutcome) (df : Bool) :
    (get db i = .error .notFound ↔ findOne db i = none) ∧
    ((update db i b).1 = .error .notFound ↔ findOne db i = none) ∧
    ((delete db i r).1 = .error .notFound ↔ findOne db i = none) ∧
    (create db body now u ins df).1 ≠ .error .notFound := by
  refine ⟨?_, ?_, ?_, ?_⟩
  · cases h : findOne db i with
    | none => simp [get, h]
    | some d => simp [get, h]
  · cases h : findOne db i with
    | none => simp [update, h]
    | some d =>
      obtain ⟨pre, post, hsplit, hpre, hd⟩ := find_decomp _ h
      have hpre' : ∀ x ∈ pre, x.id ≠ some i := fun x hx => by
        have := hpre x hx
        simpa using this
      have hd' : d.id = some i := by simpa using hd
      rw [update_spec hsplit hpre' hd']
      simp [h]
  · cases h : findOne db i with
    | none => simp [delete, h]
    | some d => cases r <;> simp [delete, h]
  · cases ins <;> cases df <;> simp [create]

/-- C7: Create failure handling.  When the store reports no generated id or
the insert call raises, Create raises `InsertionException` and the store is
unchanged; after a partial insert, any failure (here the unconditional
`TypeError` of the double `id` keyword) still surfaces as
`InsertionException` while the compensating delete removes the partially
inserted document, and a failing compensating delete is swallowed, leaving
the document behind but reporting the same `InsertionException` to the
caller.  `hfresh` states that the store-generated object id is fresh, which
Mongo guarantees for `_id`. -/
theorem c7_create_failure_handling (db : DB) (body : ProductIn) (now : ℤ)
    (u : String) (df : Bool)
    (hfresh : ∀ d ∈ db.docs, d.oid ≠ db.nextOid) :
    create db body now u .noId df = (.error .insertion, db) ∧
    create db body now u .err df = (.error .insertion, db) ∧
    (create db body now u .ok df).1 = .error .insertion ∧
    create db body now u .ok false =
      (.error .insertion, { docs := db.docs, nextOid := db.nextOid + 1 }) ∧
    create db body now u .ok true =
      (.error .insertion,
       { docs := db.docs ++ [productModelDoc body now u db.nextOid],
         nextOid := db.nextOid + 1 }) := by
  refine ⟨rfl, rfl, ?_, ?_, rfl⟩
  · cases df <;> rfl
  · have hrm : removeFirst (fun d => d.oid == (productModelDoc body now u db.nextOid).oid)
        (db.docs ++ [productModelDoc body now u db.nextOid]) = db.docs := by
      have := @removeFirst_append
        (fun d => d.oid == (productModelDoc body now u db.nextOid).oid)
        db.docs [] (productModelDoc body now u db.nextOid)
        (fun x hx => by simp [productModelDoc, hfresh x hx]) (by simp)
      simpa using this
    simp [create, insertOne, hrm]

/-- C7 witness: the failure outcomes at the spec §8 example input on the
one-document store `dbP`, whose document has a stale object id. -/
theorem c7_witness :
    create dbP bodyW 0 "u0" .noId false = (.error .insertion, dbP) := by
  exact (c7_create_failure_handling dbP bodyW 0 "u0" false (by decide)).1

set_option maxRecDepth 4096 in
/-- C4 counterexample: the claim asserts that Query with `min_price`
greater than `max_price` returns the empty sequence.  With
`min_price = 0.300000000000000005 > 0.3 = max_price`, both bounds round to
the same binary64 value, so a stored product whose price is exactly
`float(0.3)` satisfies both converted bounds and is returned; its price also
lies outside the interval `[min_price, max_price]` (which is empty), so the
result is not "exactly the records within bounds" either. -/
theorem c4_counterexample :
    mnQ > mxQ ∧
    query dbP (some { min_price := some mnQ, max_price := some mxQ,
                      name := none, status := none }) = some [toOutD docP] ∧
    some [toOutD docP] ≠ some ([] : List ProductOut) := by
  decide

/-- C4 (amended): Query with no filters returns every existing record; price
bounds are first converted to binary floating point (`float(...)` on lines
53-58), after which Query returns exactly the records whose stored price
lies within the converted bounds, both inclusive, for either or both bounds;
and whenever the converted minimum exceeds the converted maximum — in
particular whenever `min_price > max_price` and the bounds do not collapse
to the same float — the result is the empty sequence, not an error.  `h` is
the data-model invariant that every stored record carries an `id` (spec §3),
without which the output validation of `ProductOut` raises. -/
theorem c4_query_price_bounds (db : DB)
    (h : ∀ d ∈ db.docs, d.id.isSome) (mn mx : ℚ) :
    query db none = some (db.docs.map toOutD) ∧
    query db (some { min_price := some mn, max_price := some mx,
                     name := none, status := none }) =
      some ((db.docs.filter fun d =>
        decide (roundFloat mn ≤ d.price) && decide (d.price ≤ roundFloat mx)).map toOutD) ∧
    query db (some { min_price := some mn, max_price := none,
                     name := none, status := none }) =
      some ((db.docs.filter fun d => decide (roundFloat mn ≤ d.price)).map toOutD) ∧
    query db (some { min_price := none, max_price := some mx,
                     name := none, status := none }) =
      some ((db.docs.filter fun d => decide (d.price ≤ roundFloat mx)).map toOutD) ∧
    (roundFloat mx < roundFloat mn →
      query db (some { min_price := some mn, max_price := some mx,
                       name := none, status := none }) = some []) := by
  refine ⟨?_, ?_, ?_, ?_, ?_⟩
  · rw [query_eq db none h]
    have : db.docs.filter (fun d => matchDoc (buildFilter none) d) = db.docs := by
      apply List.filter_eq_self.mpr
      intro a _
      rfl
    rw [this]
  · rw [query_eq db _ h]
    congr 2
    apply List.filter_congr
    intro a _
    simp [matchDoc, buildFilter, matchPrice]
  · rw [query_eq db _ h]
    congr 2
    apply List.filter_congr
    intro a _
    simp [matchDoc, buildFilter, matchPrice]
  · rw [query_eq db _ h]
    congr 2
    apply List.filter_congr
    intro a _
    simp [matchDoc, buildFilter, matchPrice]
  · intro hgt
    rw [query]
    have hnil : db.docs.filter (fun d =>
        matchDoc (buildFilter (some { min_price := some mn, max_price := some mx,
                                      name := none, status := none })) d) = [] := by
      apply List.filter_eq_nil_iff.mpr
      intro a _
      simp only [matchDoc, buildFilter, matchPrice, Bool.and_true, Bool.and_eq_true,
        decide_eq_true_eq, not_and]
      intro h1 h2
      exact absurd (h1.trans h2) (not_le.mpr hgt)
    rw [hnil]
    rfl

/-- C4 witness: the no-filter conjunct evaluated on the one-document store
`dbP`, with the hypothesis that all stored records carry an id discharged by
computation. -/
theorem c4_witness : query dbP none = some (dbP.docs.map toOutD) := by
  exact (c4_query_price_bounds dbP (by decide) 1 2).1

/-- C5: update frame property.  For an existing record (`db.docs` splits at
its first occurrence of the requested id) and a partial body over
quantity/price/status whose `updated_at` holds the defaulted current time
`now`, Update succeeds, overwrites exactly the provided fields, refreshes
`updated_at` to `now`, leaves `name`, `created_at` and `id` (and every
unprovided field) unchanged, returns the full updated record, and stores
that same record; the empty partial set is the case with all three optional
fields `none`, which still refreshes `updated_at`. -/
theorem c5_update_frame (db : DB) (i : String) (b : ProductUpdate)
    (pre post : List Document) (d : Document) (now : ℤ)
    (hsplit : db.docs = pre ++ d :: post)
    (hpre : ∀ x ∈ pre, x.id ≠ some i) (hd : d.id = some i)
    (hts : b.updated_at = some now) :
    update db i b =
      (.ok { id := i, name := d.name,
             quantity := b.quantity.getD d.quantity,
             price := b.price.getD d.price,
             status := b.status.getD d.status,
             created_at := d.created_at, updated_at := now },
       { docs := pre ++ { d with quantity := b.quantity.getD d.quantity,
                                 price := b.price.getD d.price,
                                 status := b.status.getD d.status,
                                 updated_at := now } :: post,
         nextOid := db.nextOid }) := by
  rw [update_spec hsplit hpre hd]
  simp [toOutD, applySet, hd, hts]

/-- C5 witness: a quantity-only partial update of the single record of
`dbP`, with the body timestamp defaulted to time 5. -/
theorem c5_witness :
    update dbP "p1" { quantity := some 7, price := none,
                      status := none, updated_at := some 5 } =
      (.ok { id := "p1", name := "Widget", quantity := 7,
             price := roundFloat (3 / 10), status := true,
             created_at := 0, updated_at := 5 },
       { docs := [{ docP with quantity := 7, updated_at := 5 }],
         nextOid := 1 }) := by
  exact c5_update_frame dbP "p1" _ [] [] docP 5 rfl (by simp) rfl rfl

/-- C8 counterexample: the claim asserts `updated_at >= created_at` for every
record returned after any Update.  `ProductUpdate` exposes `updated_at` to
the client, so an update body carrying an explicit past timestamp backdates
the record: updating the record created at time 100 with `updated_at = 0`
returns a record whose `updated_at` (0) is strictly below its `created_at`
(100). -/
theorem c8_counterexample :
    (update dbC "c1" { quantity := none, price := none,
                       status := none, updated_at := some 0 }).1 =
      .ok { id := "c1", name := "W", quantity := 1, price := 1, status := true,
            created_at := 100, updated_at := 0 } ∧
    (0 : ℤ) < 100 := by
  exact ⟨rfl, by decide⟩

/-- C8 (amended): every record Create inserts has `updated_at = created_at`;
Update never changes `created_at`; and a record returned by Update satisfies
`updated_at >= created_at` provided the update body's `updated_at` value —
which defaults to the current time and is only lower when a client supplies
an explicit past timestamp — is not below the record's `created_at`. -/
theorem c8_timestamps :
    (∀ (body : ProductIn) (now : ℤ) (u : String) (oid : Nat),
      (productModelDoc body now u oid).created_at =
        (productModelDoc body now u oid).updated_at) ∧
    (∀ (db : DB) (i : String) (b : ProductUpdate) (pre post : List Document)
      (d : Document) (t : ℤ),
      db.docs = pre ++ d :: post → (∀ x ∈ pre, x.id ≠ some i) →
      d.id = some i → b.updated_at = some t → d.created_at ≤ t →
      (update db i b).1 = .ok (toOutD (applySet b d)) ∧
      (toOutD (applySet b d)).created_at = d.created_at ∧
      (toOutD (applySet b d)).created_at ≤ (toOutD (applySet b d)).updated_at) := by
  refine ⟨fun body now u oid => rfl, ?_⟩
  intro db i b pre post d t hsplit hpre hd hts hle
  refine ⟨?_, rfl, ?_⟩
  · rw [update_spec hsplit hpre hd]
  · simp [toOutD, applySet, hts]
    exact hle

/-- C8 witness: updating the record of `dbC` (created at time 100) with the
defaulted current timestamp 200 keeps `created_at` and restores the
inequality. -/
theorem c8_witness :
    (update dbC "c1" { quantity := none, price := none,
                       status := none, updated_at := some 200 }).1 =
      .ok (toOutD (applySet { quantity := none, price := none,
                              status := none, updated_at := some 200 } docC)) ∧
    (toOutD (applySet { quantity := none, price := none,
                        status := none, updated_at := some 200 } docC)).created_at =
      docC.created_at ∧
    (toOutD (applySet { quantity := none, price := none,
                        status := none, updated_at := some 200 } docC)).created_at ≤
      (toOutD (applySet { quantity := none, price := none,
                          status := none, updated_at := some 200 } docC)).updated_at := by
  exact c8_timestamps.2 dbC "c1" _ [] [] docC 200 rfl (by simp) rfl rfl (by decide)

/-- C9: delete success path.  For an existing record, Delete with an
uncontended store removes exactly that record and returns `True`; when the
store reports zero documents removed despite the existence check (a lost
race), Delete returns `False` instead of raising. -/
theorem c9_delete_success (db : DB) (i : String)
    (pre post : List Document) (d : Document)
    (hsplit : db.docs = pre ++ d :: post)
    (hpre : ∀ x ∈ pre, x.id ≠ some i) (hd : d.id = some i) :
    findOne db i = some d ∧
    delete db i false = (.ok true, { docs := pre ++ post, nextOid := db.nextOid }) ∧
    delete db i true = (.ok false, db) := by
  exact ⟨findOne_split hsplit hpre hd, (delete_spec hsplit hpre hd).1,
    (delete_spec hsplit hpre hd).2⟩

/-- C9 witness: deleting the single record of `dbP` removes it and returns
`True`; the lost-race branch returns `False`. -/
theorem c9_witness :
    delete dbP "p1" false = (.ok true, { docs := [], nextOid := 1 }) := by
  exact (c9_delete_success dbP "p1" [] [] docP rfl (by simp) rfl).2.1

/-- C10 counterexample: the claim asserts the name filter string is treated
as a literal substring, not as a pattern.  The code passes it as a `$regex`
pattern: the filter string `a.c` matches the stored name `abc` (the dot
matches any character) and the record is returned, although `a.c` is not a
substring of `abc` under any case folding. -/
theorem c10_counterexample :
    query dbA (some { min_price := none, max_price := none,
                      name := some "a.c", status := none }) = some [toOutD docA] ∧
    containsCI "a.c".data "abc".data = false := by
  decide

/-- C10 (amended): the name filter string is passed to the store as a
regular-expression pattern with the case-insensitive option; for filter
strings containing no metacharacter (no `.` in the modelled pattern
fragment) this coincides with a case-insensitive literal substring match,
and Query then returns exactly the records whose name contains the filter
string as a substring, compared case-insensitively. -/
theorem c10_name_filter (db : DB) (h : ∀ d ∈ db.docs, d.id.isSome)
    (pat : String) (hp : ('.' : Char) ∉ pat.data) :
    query db (some { min_price := none, max_price := none,
                     name := some pat, status := none }) =
      some ((db.docs.filter fun d => containsCI pat.data d.name.data).map toOutD) := by
  rw [query_eq db _ h]
  congr 2
  apply List.filter_congr
  intro a _
  simp [matchDoc, buildFilter, regexFind_eq_contains hp]

/-- C10 witness: the dot-free filter string `bc` on the store `dbA` returns
exactly the record named `abc`. -/
theorem c10_witness :
    query dbA (some { min_price := none, max_price := none,
                      name := some "bc", status := none }) =
      some ((dbA.docs.filter fun d => containsCI "bc".data d.name.data).map toOutD) := by
  exact c10_name_filter dbA (by decide) "bc" (by decide)

end StoreApi
